import Mathlib

/-!
Long-running call correlation and resumption validation

A shallow embedding of `server/adka2a/input_required.go`:

* `inputRequiredProcessor.process` and `isResponseToLongRunning`, which build the
  input-required status update (the "suspension snapshot") of a run;
* `validateInputRequiredResumption`, which gates the resumption of a task that sits in
  the input-required state.

Go pointers that the code tests against `nil` are `Option`s.  A nil dereference is the
outcome `Outcome.panic`.  The two part translations `ToA2AParts` and `ToGenAIParts`, the
two metadata constants and the `%q` verb of `fmt` live outside the file and are fields of
`Env`.
-/

set_option autoImplicit false

namespace Adka2a

/-! ## Data model -/

/-- A dynamically typed Go value (`any`) as stored in the maps of an A2A data part. -/
inductive AnyVal where
  | null
  | str (s : String)
  | int (n : Int)
  | bool (b : Bool)
  deriving DecidableEq, Repr

/-- A Go `map[string]any`; `List.lookup` is the map index expression `m[k]` with its
`ok` result. -/
abbrev AnyMap := List (String × AnyVal)

/-- The `genai.FunctionCall` fields. -/
structure FunctionCall where
  id : String
  name : String
  args : AnyMap
  deriving DecidableEq, Repr

/-- The `genai.FunctionResponse` fields. -/
structure FunctionResponse where
  id : String
  name : String
  response : AnyMap
  deriving DecidableEq, Repr

/-- The `genai.Part` fields the code reads: `FunctionCall` and `FunctionResponse` are
pointers, so both may be nil and the type does not stop both from being set. -/
structure Part where
  text : String
  functionCall : Option FunctionCall
  functionResponse : Option FunctionResponse
  deriving DecidableEq, Repr

/-- The `genai.Content` of an event or of a new input: its part slice (of non-nil parts). -/
structure Content where
  parts : List Part
  deriving DecidableEq, Repr

/-- The `session.Event` fields read by `process`: `LLMResponse.Content` (a pointer) and
`LongRunningToolIDs`. -/
structure Event where
  content : Option Content
  longRunningToolIDs : List String
  deriving DecidableEq, Repr

/-- The `a2a.DataPart` fields. -/
structure DataPart where
  data : AnyMap
  metadata : AnyMap
  deriving DecidableEq, Repr

/-- The `a2a.Part` interface with its implementations. -/
inductive A2APart where
  | text (t : String)
  | data (dp : DataPart)
  | file (uri : String)
  deriving DecidableEq, Repr

/-- The `a2a.MessageRole` values. -/
inductive MessageRole where
  | agent
  | user
  deriving DecidableEq, Repr

/-- The `a2a.TaskState` values. -/
inductive TaskState where
  | submitted
  | working
  | inputRequired
  | completed
  | canceled
  | failed
  | rejected
  | authRequired
  | unknown
  deriving DecidableEq, Repr

/-- The `a2a.Message` fields: identifier, role and part sequence. -/
structure Message where
  id : String
  role : MessageRole
  parts : List A2APart
  deriving DecidableEq, Repr

/-- The `a2a.TaskStatus` of a stored task: `Message` is a pointer. -/
structure TaskStatus where
  state : TaskState
  message : Option Message
  deriving DecidableEq, Repr

/-- The `a2a.Task` fields. -/
structure Task where
  id : String
  contextID : String
  status : TaskStatus
  deriving DecidableEq, Repr

/-- The `a2asrv.RequestContext` fields: `StoredTask` is a pointer. -/
structure RequestContext where
  taskID : String
  contextID : String
  storedTask : Option Task
  deriving DecidableEq, Repr

/-- The `a2a.TaskStatusUpdateEvent` held in the processor's `event` field.  The only
assignment to that field (line 74) stores an event built by `a2a.NewStatusUpdateEvent`
around a message built by `a2a.NewMessage`, so its `Status.Message` is never nil and is a
plain field here; `timestamp` is the status timestamp. -/
structure StatusUpdateEvent where
  taskID : String
  contextID : String
  state : TaskState
  timestamp : Nat
  message : Message
  final : Bool
  deriving DecidableEq, Repr

/-- The `inputRequiredProcessor`: the request context and the snapshot, nil until the first
pending part is found. -/
structure Processor where
  reqCtx : RequestContext
  event : Option StatusUpdateEvent
  deriving DecidableEq, Repr

/-- What a Go call does: return a nil error, return an error with the given text, or panic
on a nil dereference. -/
inductive Outcome where
  | ok
  | error (msg : String)
  | panic
  deriving DecidableEq, Repr

/-- The collaborators of the file: the two part translations of package `adka2a`, the
constants `a2aDataPartMetaTypeKey` and `a2aDataPartTypeFunctionCall`, the `%q` verb of
`fmt`, and the message identifier and clock reading used by the `a2a` constructors. -/
structure Env where
  toA2AParts : List Part → List String → Except String (List A2APart)
  toGenAIParts : List A2APart → Except String (List Part)
  metaTypeKey : String
  typeFunctionCall : String
  quote : String → String
  newMessageID : String
  now : Nat

/-! ## The processor -/

/-- The constructor `newInputRequiredProcessor`. -/
def newInputRequiredProcessor (reqCtx : RequestContext) : Processor :=
  { reqCtx := reqCtx, event := none }

/-- The body of the loop of `isResponseToLongRunning` (lines 83-89) for one part: the part
is an `a2a.DataPart`, its metadata has the type key with a value equal to the function-call
marker, and its datum `"id"` is a string equal to `id`. -/
def isRecordedCall (env : Env) (id : String) (part : A2APart) : Bool :=
  match part with
  | A2APart.data dp =>
    match dp.metadata.lookup env.metaTypeKey with
    | some typeVal =>
      if typeVal = AnyVal.str env.typeFunctionCall then
        match dp.data.lookup "id" with
        | some (AnyVal.str callID) => callID == id
        | _ => false
      else false
    | none => false
  | _ => false

/-- The method `isResponseToLongRunning` (lines 78-92). -/
def isResponseToLongRunning (env : Env) (p : Processor) (id : String) : Bool :=
  match p.event with
  | none => false
  | some ev => ev.message.parts.any (isRecordedCall env id)

/-- The condition of line 46: the identifier appended when the part is a function call
whose identifier is in `LongRunningToolIDs`. -/
def pendingCallID (longRunning : List String) (part : Part) : Option String :=
  match part.functionCall with
  | some fc => if longRunning.contains fc.id then some fc.id else none
  | none => none

/-- The condition of line 51: the identifier appended when the part is a function response
that `isResponseToLongRunning` accepts. -/
def pendingResponseID (env : Env) (p : Processor) (part : Part) : Option String :=
  match part.functionResponse with
  | some fr => if isResponseToLongRunning env p fr.id then some fr.id else none
  | none => none

/-- The loop of lines 45-55 over the remaining parts, with the two slices built so far. -/
def collectLoop (env : Env) (p : Processor) (longRunning : List String) :
    List Part → List Part → List String → List Part × List String
  | [], inputRequiredParts, longRunningCallIDs => (inputRequiredParts, longRunningCallIDs)
  | part :: rest, inputRequiredParts, longRunningCallIDs =>
    match pendingCallID longRunning part with
    | some id =>
      collectLoop env p longRunning rest (inputRequiredParts ++ [part]) (longRunningCallIDs ++ [id])
    | none =>
      match pendingResponseID env p part with
      | some id =>
        collectLoop env p longRunning rest (inputRequiredParts ++ [part])
          (longRunningCallIDs ++ [id])
      | none => collectLoop env p longRunning rest inputRequiredParts longRunningCallIDs

/-- The two slices `inputRequiredParts` and `longRunningCallIDs` after the loop. -/
def collect (env : Env) (p : Processor) (event : Event) (content : Content) :
    List Part × List String :=
  collectLoop env p event.longRunningToolIDs content.parts [] []

/-- The method `process` (lines 37-76): the returned error and the processor afterwards. -/
def process (env : Env) (p : Processor) (event : Event) : Outcome × Processor :=
  match event.content with
  | none => (Outcome.ok, p)
  | some content =>
    let collected := collect env p event content
    if collected.1.length = 0 then (Outcome.ok, p)
    else
      match env.toA2AParts collected.1 collected.2 with
      | Except.error err =>
        (Outcome.error ("failed to convert input required parts to A2A parts: " ++ err), p)
      | Except.ok a2aParts =>
        match p.event with
        | some ev =>
          let msg : Message := { ev.message with parts := ev.message.parts ++ a2aParts }
          (Outcome.ok, { p with event := some ({ ev with message := msg }) })
        | none =>
          let msg : Message :=
            { id := env.newMessageID, role := MessageRole.agent, parts := a2aParts }
          let ev : StatusUpdateEvent :=
            { taskID := p.reqCtx.taskID
              contextID := p.reqCtx.contextID
              state := TaskState.inputRequired
              timestamp := env.now
              message := msg
              final := false }
          (Outcome.ok, { p with event := some ({ ev with final := true }) })

/-- Processing a sequence of events in order, as the run's event loop does: the outcomes of
the calls, and the processor at the end. -/
def processAll (env : Env) : Processor → List Event → List Outcome × Processor
  | p, [] => ([], p)
  | p, event :: rest =>
    let r := process env p event
    let rs := processAll env r.2 rest
    (r.1 :: rs.1, rs.2)

/-! ## The resumption validator -/

/-- The closure handed to `slices.ContainsFunc` (lines 114-116).  Its parameter is named `p`
like the loop variable of line 110 and hides it, so both `p.FunctionResponse` and
`p.FunctionCall` are read from the input part; `taskPart` is the hidden loop variable.
`none` is the nil dereference of `p.FunctionCall.ID`. -/
def matchesResponse (_taskPart : Part) (p : Part) : Option Bool :=
  match p.functionResponse with
  | none => some false
  | some fr =>
    match p.functionCall with
    | none => none
    | some fc => some (fr.id == fc.id)

/-- The library function `slices.ContainsFunc` for a predicate that may panic: the parts are
tried in order until one satisfies the predicate. -/
def containsFunc (f : Part → Option Bool) : List Part → Option Bool
  | [] => some false
  | x :: xs =>
    match f x with
    | none => none
    | some true => some true
    | some false => containsFunc f xs

/-- The loop of lines 110-120 over the remaining task parts. -/
def validateLoop (env : Env) (content : Option Content) : List Part → Outcome
  | [] => Outcome.ok
  | p :: rest =>
    match p.functionCall with
    | none => validateLoop env content rest
    | some fc =>
      match content with
      | none => Outcome.panic
      | some c =>
        match containsFunc (matchesResponse p) c.parts with
        | none => Outcome.panic
        | some true => validateLoop env content rest
        | some false =>
          Outcome.error ("no input provided for function call ID " ++ env.quote fc.id)

/-- The function `validateInputRequiredResumption` (lines 96-122). -/
def validateInputRequiredResumption (env : Env) (reqCtx : RequestContext)
    (content : Option Content) : Outcome :=
  match reqCtx.storedTask with
  | none => Outcome.ok
  | some task =>
    if task.status.state ≠ TaskState.inputRequired then Outcome.ok
    else
      match task.status.message with
      | none => Outcome.ok
      | some statusMsg =>
        match env.toGenAIParts statusMsg.parts with
        | Except.error err => Outcome.error ("failed to parse task status message: " ++ err)
        | Except.ok taskParts => validateLoop env content taskParts

/-! ## A concrete instance of the collaborators -/

/-- Modelled from the spec: the translation `ToA2AParts` of one part, which is outside the
file.  A function call or response becomes a data part that carries a type marker and the
original identifier; any other part becomes a text part. -/
def sampleToA2APart (longRunningIDs : List String) (part : Part) : A2APart :=
  match part.functionCall with
  | some fc =>
    A2APart.data
      { data := [("id", AnyVal.str fc.id), ("name", AnyVal.str fc.name)]
        metadata := [("adk_type", AnyVal.str "function_call"),
          ("adk_is_long_running", AnyVal.bool (longRunningIDs.contains fc.id))] }
  | none =>
    match part.functionResponse with
    | some fr =>
      A2APart.data
        { data := [("id", AnyVal.str fr.id), ("name", AnyVal.str fr.name)]
          metadata := [("adk_type", AnyVal.str "function_response")] }
    | none => A2APart.text part.text

/-- Modelled from the spec: the translation `ToGenAIParts` of one part, which is outside the
file; it reads back what `sampleToA2APart` wrote and fails on anything else. -/
def sampleToGenAIPart (part : A2APart) : Except String Part :=
  match part with
  | A2APart.text t => Except.ok { text := t, functionCall := none, functionResponse := none }
  | A2APart.file _ => Except.error "unsupported part"
  | A2APart.data dp =>
    match dp.metadata.lookup "adk_type", dp.data.lookup "id", dp.data.lookup "name" with
    | some (AnyVal.str ty), some (AnyVal.str id), some (AnyVal.str name) =>
      if ty = "function_call" then
        Except.ok
          { text := "", functionCall := some { id := id, name := name, args := [] },
            functionResponse := none }
      else if ty = "function_response" then
        Except.ok
          { text := "", functionCall := none,
            functionResponse := some { id := id, name := name, response := [] } }
      else Except.error "unknown data part"
    | _, _, _ => Except.error "malformed data part"

/-- Modelled from the spec: the two translations, the two constants and the quoting of
identifiers without special characters, none of which is in the file. -/
def sampleEnv : Env :=
  { toA2AParts := fun parts ids => Except.ok (parts.map (sampleToA2APart ids))
    toGenAIParts := fun parts => parts.mapM sampleToGenAIPart
    metaTypeKey := "adk_type"
    typeFunctionCall := "function_call"
    quote := fun s => "\"" ++ s ++ "\""
    newMessageID := "msg-1"
    now := 0 }

/-- The collaborators of `sampleEnv` with both translations failing on every input. -/
def failingEnv : Env :=
  { sampleEnv with
    toA2AParts := fun _ _ => Except.error "invalid part"
    toGenAIParts := fun _ => Except.error "invalid part" }

/-- A part that is a function call and nothing else. -/
def callPart (id : String) : Part :=
  { text := "", functionCall := some { id := id, name := "tool", args := [] },
    functionResponse := none }

/-- A part that is a function response and nothing else. -/
def responsePart (id : String) : Part :=
  { text := "", functionCall := none,
    functionResponse := some { id := id, name := "tool", response := [] } }

/-- A part of plain text. -/
def textPart (t : String) : Part :=
  { text := t, functionCall := none, functionResponse := none }

/-- A request context without a stored task. -/
def sampleReqCtx : RequestContext :=
  { taskID := "task-1", contextID := "ctx-1", storedTask := none }

/-- A request context whose stored task is in the input-required state with the given
status message parts. -/
def suspendedReqCtx (parts : List A2APart) : RequestContext :=
  { taskID := "task-1", contextID := "ctx-1",
    storedTask := some
      { id := "task-1", contextID := "ctx-1",
        status :=
          { state := TaskState.inputRequired,
            message := some { id := "msg-1", role := MessageRole.agent, parts := parts } } } }

/-! ## The vocabulary of the specification -/

/-- A pending call of an event: a function call whose identifier is in the event's set of
long-running identifiers. -/
def IsPendingCall (event : Event) (part : Part) : Prop :=
  ∃ fc, part.functionCall = some fc ∧ fc.id ∈ event.longRunningToolIDs

/-- An external part that records a function call with the given identifier: a data part
whose type metadata is the function-call marker and whose datum `"id"` is that string. -/
def RecordsCall (env : Env) (id : String) (part : A2APart) : Prop :=
  ∃ dp, part = A2APart.data dp ∧
    dp.metadata.lookup env.metaTypeKey = some (AnyVal.str env.typeFunctionCall) ∧
    dp.data.lookup "id" = some (AnyVal.str id)

/-- The processor holds a snapshot, and one of its parts records a call with the given
identifier. -/
def HasRecordedCall (env : Env) (p : Processor) (id : String) : Prop :=
  ∃ ev, p.event = some ev ∧ ∃ part ∈ ev.message.parts, RecordsCall env id part

/-- A pending response: a function response whose identifier is that of a call recorded in
the snapshot. -/
def IsPendingResponse (env : Env) (p : Processor) (part : Part) : Prop :=
  ∃ fr, part.functionResponse = some fr ∧ HasRecordedCall env p fr.id

/-- Whether the loop of `process` keeps the part. -/
def isPending (env : Env) (p : Processor) (longRunning : List String) (part : Part) : Bool :=
  (pendingCallID longRunning part).isSome || (pendingResponseID env p part).isSome

/-- The identifier the loop of `process` records for the part, if it keeps it. -/
def pendingID (env : Env) (p : Processor) (longRunning : List String) (part : Part) :
    Option String :=
  match pendingCallID longRunning part with
  | some id => some id
  | none => pendingResponseID env p part

/-- The pending parts of an event, in their order in the event. -/
def pendingParts (env : Env) (p : Processor) (event : Event) : List Part :=
  match event.content with
  | none => []
  | some content => content.parts.filter (isPending env p event.longRunningToolIDs)

/-- The identifiers of the pending parts of an event, in the same order. -/
def pendingIDs (env : Env) (p : Processor) (event : Event) : List String :=
  match event.content with
  | none => []
  | some content => content.parts.filterMap (pendingID env p event.longRunningToolIDs)

/-- The translated pending parts of an event: the translation of its pending parts when
there are some and their translation succeeds, and nothing otherwise. -/
def translatedPending (env : Env) (p : Processor) (event : Event) : List A2APart :=
  if pendingParts env p event = [] then []
  else
    match env.toA2AParts (pendingParts env p event) (pendingIDs env p event) with
    | Except.ok a2aParts => a2aParts
    | Except.error _ => []

/-- The pending calls of an event, in their order in the event. -/
def pendingCalls (event : Event) (content : Content) : List Part :=
  content.parts.filter (fun part => (pendingCallID event.longRunningToolIDs part).isSome)

/-- The call identifiers of a list of function-call parts. -/
def callIDs (parts : List Part) : List String :=
  parts.filterMap (fun part => part.functionCall.map (fun fc => fc.id))

/-- The snapshot of a processor with the given parts appended to its message. -/
def appendParts (ev : StatusUpdateEvent) (added : List A2APart) : StatusUpdateEvent :=
  { taskID := ev.taskID
    contextID := ev.contextID
    state := ev.state
    timestamp := ev.timestamp
    message := { id := ev.message.id, role := ev.message.role, parts := ev.message.parts ++ added }
    final := ev.final }

/-- A newly created snapshot with the given parts: an agent message in a final status
update of state input-required for the task of the request. -/
def newSnapshot (env : Env) (reqCtx : RequestContext) (parts : List A2APart) :
    StatusUpdateEvent :=
  { taskID := reqCtx.taskID
    contextID := reqCtx.contextID
    state := TaskState.inputRequired
    timestamp := env.now
    message := { id := env.newMessageID, role := MessageRole.agent, parts := parts }
    final := true }

/-- The status of a suspension snapshot: final, in state input-required, with a message of
role agent. -/
def HasSuspendedStatus (ev : StatusUpdateEvent) : Prop :=
  ev.final = true ∧ ev.state = TaskState.inputRequired ∧ ev.message.role = MessageRole.agent

/-- A part that is exactly one of plain content, a function call, or a function response:
it does not carry both a function call and a function response. -/
def IsSingleKind (part : Part) : Prop :=
  part.functionCall = none ∨ part.functionResponse = none

/-- The collaborators with another translation to external parts. -/
def Env.withToA2AParts (env : Env)
    (f : List Part → List String → Except String (List A2APart)) : Env :=
  { toA2AParts := f
    toGenAIParts := env.toGenAIParts
    metaTypeKey := env.metaTypeKey
    typeFunctionCall := env.typeFunctionCall
    quote := env.quote
    newMessageID := env.newMessageID
    now := env.now }

/-- The stored task that holds the snapshot of a processor as its status message, in the
state of that snapshot; no stored task when the processor has no snapshot. -/
def storeSnapshot (p : Processor) : RequestContext :=
  { taskID := p.reqCtx.taskID
    contextID := p.reqCtx.contextID
    storedTask :=
      match p.event with
      | none => none
      | some ev =>
        some
          { id := ev.taskID
            contextID := ev.contextID
            status := { state := ev.state, message := some ev.message } } }

/-- The identifier that goes with a collected part: the call identifier when the part is a
pending call, and otherwise the response identifier of a pending response. -/
def IsCollectedID (env : Env) (p : Processor) (event : Event) (part : Part) (id : String) :
    Prop :=
  (∃ fc, part.functionCall = some fc ∧ fc.id ∈ event.longRunningToolIDs ∧ fc.id = id) ∨
    (¬ IsPendingCall event part ∧
      ∃ fr, part.functionResponse = some fr ∧ HasRecordedCall env p fr.id ∧ fr.id = id)

end Adka2a

/-!
The interaction handler

A shallow embedding of `server/adkinteractions/handler.go`.  `ServeHTTP` is a list of the
effects it performs, in order: what it asks of its collaborators and what it writes to the
response writer.
-/

namespace Adkinteractions

/-- The struct `interactionRequest`. -/
structure InteractionRequest where
  previousInteractionID : String
  input : String
  background : Bool
  deriving DecidableEq, Repr

/-- The `http.Request` fields read by `ServeHTTP`: the method and the body. -/
structure Request where
  method : String
  body : String
  deriving DecidableEq, Repr

/-- The struct `handler`; its `runnerConfig` is behind the collaborators of `HandlerEnv`. -/
structure Handler where
  appID : String
  userID : String
  deriving DecidableEq, Repr

/-- An effect of `ServeHTTP`: a call to a collaborator or a write to the response. -/
inductive Effect where
  | decodeBody
  | newRunner
  | createSession (appName userID : String)
  | runAgent (userID sessionID input : String)
  | setHeader (key value : String)
  | encodeResponse (id : String) (outputs : List String)
  | httpError (msg : String) (code : Nat)
  deriving DecidableEq, Repr

/-- The collaborators of the handler: the JSON decoder on the request body, `runner.New`,
the session service's `Create` (its result is the session identifier), the event sequence
of the runner's `Run` (each item an event or an error), and the JSON encoder on the response
writer. -/
structure HandlerEnv where
  decode : String → Except String InteractionRequest
  newRunner : Except String Unit
  createSession : String → String → Except String String
  run : String → String → String → List (Except String Unit)
  encode : String → List String → Except String Unit

/-- The constant `http.MethodPost`. -/
def methodPost : String := "POST"

/-- The constant `http.StatusBadRequest`. -/
def statusBadRequest : Nat := 400

/-- The constant `http.StatusMethodNotAllowed`. -/
def statusMethodNotAllowed : Nat := 405

/-- The constant `http.StatusInternalServerError`. -/
def statusInternalServerError : Nat := 500

/-- The constant `http.StatusNotImplemented`. -/
def statusNotImplemented : Nat := 501

/-- The loop of lines 83-89 over the items of the runner's event sequence: `true` when an
item is an error, at which the loop replies and returns. -/
def runFails : List (Except String Unit) → Bool
  | [] => false
  | Except.error _ :: _ => true
  | Except.ok _ :: rest => runFails rest

/-- The method `ServeHTTP` (lines 42-99): its effects in order. -/
def ServeHTTP (env : HandlerEnv) (h : Handler) (r : Request) : List Effect :=
  if r.method ≠ methodPost then
    [Effect.httpError "POST method is allowed" statusMethodNotAllowed]
  else
    match env.decode r.body with
    | Except.error _ =>
      [Effect.decodeBody, Effect.httpError "Invalid request body" statusBadRequest]
    | Except.ok req =>
      if req.background then
        [Effect.decodeBody,
          Effect.httpError "Background interactions not supported yet" statusNotImplemented]
      else
        match env.newRunner with
        | Except.error _ =>
          [Effect.decodeBody, Effect.newRunner,
            Effect.httpError "Failed to create runner" statusInternalServerError]
        | Except.ok _ =>
          match env.createSession h.appID h.userID with
          | Except.error _ =>
            [Effect.decodeBody, Effect.newRunner, Effect.createSession h.appID h.userID,
              Effect.httpError "Failed to create session" statusInternalServerError]
          | Except.ok sessionID =>
            if runFails (env.run h.userID sessionID req.input) then
              [Effect.decodeBody, Effect.newRunner, Effect.createSession h.appID h.userID,
                Effect.runAgent h.userID sessionID req.input,
                Effect.httpError "Failed to run runner" statusInternalServerError]
            else
              match env.encode "???" ["some output"] with
              | Except.error _ =>
                [Effect.decodeBody, Effect.newRunner, Effect.createSession h.appID h.userID,
                  Effect.runAgent h.userID sessionID req.input,
                  Effect.setHeader "Content-Type" "application/json",
                  Effect.encodeResponse "???" ["some output"],
                  Effect.httpError "Failed to write response" statusInternalServerError]
              | Except.ok _ =>
                [Effect.decodeBody, Effect.newRunner, Effect.createSession h.appID h.userID,
                  Effect.runAgent h.userID sessionID req.input,
                  Effect.setHeader "Content-Type" "application/json",
                  Effect.encodeResponse "???" ["some output"]]

/-- The work that the handler does for an interaction: a runner, a session, a run. -/
def Effect.isWork : Effect → Bool
  | Effect.newRunner => true
  | Effect.createSession _ _ => true
  | Effect.runAgent _ _ _ => true
  | _ => false

/-- Collaborators that accept every body as a foreground interaction and never fail. -/
def sampleHandlerEnv : HandlerEnv :=
  { decode := fun body =>
      Except.ok { previousInteractionID := "", input := body, background := false }
    newRunner := Except.ok ()
    createSession := fun _ _ => Except.ok "session-1"
    run := fun _ _ _ => [Except.ok ()]
    encode := fun _ _ => Except.ok () }

/-- Collaborators that decode every body as a background interaction that continues an
earlier one. -/
def backgroundHandlerEnv : HandlerEnv :=
  { decode := fun body =>
      Except.ok { previousInteractionID := "prev-1", input := body, background := true }
    newRunner := Except.ok ()
    createSession := fun _ _ => Except.ok "session-1"
    run := fun _ _ _ => [Except.ok ()]
    encode := fun _ _ => Except.ok () }

/-- A handler for one application and user. -/
def sampleHandler : Handler := { appID := "app", userID := "user" }

end Adkinteractions

namespace Adka2a

/-! ## Lemmas on the classification of parts -/

theorem isRecordedCall_iff (env : Env) (id : String) (part : A2APart) :
    isRecordedCall env id part = true ↔ RecordsCall env id part := by
  unfold isRecordedCall RecordsCall
  cases part with
  | text t => simp
  | file u => simp
  | data dp =>
    simp only [A2APart.data.injEq, exists_eq_left']
    cases hm : dp.metadata.lookup env.metaTypeKey with
    | none => simp
    | some typeVal =>
      by_cases hty : typeVal = AnyVal.str env.typeFunctionCall
      · subst hty
        simp only [if_true, true_and]
        cases hd : dp.data.lookup "id" with
        | none => simp
        | some v => cases v <;> simp
      · simp [hty]

theorem isResponseToLongRunning_iff (env : Env) (p : Processor) (id : String) :
    isResponseToLongRunning env p id = true ↔ HasRecordedCall env p id := by
  unfold isResponseToLongRunning HasRecordedCall
  cases hp : p.event with
  | none => simp
  | some ev => simp [List.any_eq_true, isRecordedCall_iff]

theorem pendingCallID_eq_some_iff (event : Event) (part : Part) (id : String) :
    pendingCallID event.longRunningToolIDs part = some id ↔
      ∃ fc, part.functionCall = some fc ∧ fc.id ∈ event.longRunningToolIDs ∧ fc.id = id := by
  unfold pendingCallID
  cases hfc : part.functionCall with
  | none => simp
  | some fc =>
    by_cases hmem : fc.id ∈ event.longRunningToolIDs <;> simp [hmem]

theorem pendingCallID_isSome_iff (event : Event) (part : Part) :
    (pendingCallID event.longRunningToolIDs part).isSome = true ↔ IsPendingCall event part := by
  unfold IsPendingCall
  rw [Option.isSome_iff_exists]
  constructor
  · rintro ⟨id, hid⟩
    obtain ⟨fc, h1, h2, _⟩ := (pendingCallID_eq_some_iff event part id).1 hid
    exact ⟨fc, h1, h2⟩
  · rintro ⟨fc, h1, h2⟩
    exact ⟨fc.id, (pendingCallID_eq_some_iff event part fc.id).2 ⟨fc, h1, h2, rfl⟩⟩

theorem pendingResponseID_eq_some_iff (env : Env) (p : Processor) (part : Part)
    (id : String) :
    pendingResponseID env p part = some id ↔
      ∃ fr, part.functionResponse = some fr ∧ HasRecordedCall env p fr.id ∧ fr.id = id := by
  unfold pendingResponseID
  cases hfr : part.functionResponse with
  | none => simp
  | some fr =>
    by_cases hrec : isResponseToLongRunning env p fr.id = true
    · simp [hrec, (isResponseToLongRunning_iff env p fr.id).1 hrec]
    · have hno : ¬ HasRecordedCall env p fr.id :=
        fun h => hrec ((isResponseToLongRunning_iff env p fr.id).2 h)
      simp [hrec, hno]

theorem pendingResponseID_isSome_iff (env : Env) (p : Processor) (part : Part) :
    (pendingResponseID env p part).isSome = true ↔ IsPendingResponse env p part := by
  unfold IsPendingResponse
  rw [Option.isSome_iff_exists]
  constructor
  · rintro ⟨id, hid⟩
    obtain ⟨fr, h1, h2, _⟩ := (pendingResponseID_eq_some_iff env p part id).1 hid
    exact ⟨fr, h1, h2⟩
  · rintro ⟨fr, h1, h2⟩
    exact ⟨fr.id, (pendingResponseID_eq_some_iff env p part fr.id).2 ⟨fr, h1, h2, rfl⟩⟩

theorem isPending_iff (env : Env) (p : Processor) (event : Event) (part : Part) :
    isPending env p event.longRunningToolIDs part = true ↔
      IsPendingCall event part ∨ IsPendingResponse env p part := by
  unfold isPending
  rw [Bool.or_eq_true, pendingCallID_isSome_iff, pendingResponseID_isSome_iff]

/-- The loop of `process` appends to its two slices the pending parts of the remaining
parts and their identifiers, in order. -/
theorem collectLoop_eq (env : Env) (p : Processor) (longRunning : List String)
    (parts : List Part) (accParts : List Part) (accIDs : List String) :
    collectLoop env p longRunning parts accParts accIDs =
      (accParts ++ parts.filter (isPending env p longRunning),
        accIDs ++ parts.filterMap (pendingID env p longRunning)) := by
  induction parts generalizing accParts accIDs with
  | nil => simp [collectLoop]
  | cons part rest ih =>
    unfold collectLoop
    cases hc : pendingCallID longRunning part with
    | some id =>
      simp [ih, isPending, pendingID, hc, List.filter_cons, List.filterMap_cons]
    | none =>
      cases hr : pendingResponseID env p part with
      | some id =>
        simp [ih, isPending, pendingID, hc, hr, List.filter_cons, List.filterMap_cons]
      | none =>
        simp [ih, isPending, pendingID, hc, hr, List.filter_cons, List.filterMap_cons]

theorem collect_eq (env : Env) (p : Processor) (event : Event) (content : Content) :
    collect env p event content =
      (content.parts.filter (isPending env p event.longRunningToolIDs),
        content.parts.filterMap (pendingID env p event.longRunningToolIDs)) := by
  simp [collect, collectLoop_eq]

/-! ## Lemmas on `process` -/

theorem pendingParts_eq_collect (env : Env) (p : Processor) (event : Event)
    (content : Content) (hc : event.content = some content) :
    pendingParts env p event = (collect env p event content).1 ∧
      pendingIDs env p event = (collect env p event content).2 := by
  simp [pendingParts, pendingIDs, hc, collect_eq]

/-- An event without pending parts leaves the processor as it is, without a translation. -/
theorem process_of_no_pending (env : Env) (p : Processor) (event : Event)
    (h : pendingParts env p event = []) : process env p event = (Outcome.ok, p) := by
  unfold process
  cases hc : event.content with
  | none => rfl
  | some content =>
    have hcol := (pendingParts_eq_collect env p event content hc).1
    rw [h] at hcol
    simp [← hcol]

/-- An event with pending parts whose translation fails leaves the processor as it is. -/
theorem process_of_translation_error (env : Env) (p : Processor) (event : Event)
    (err : String) (h : pendingParts env p event ≠ [])
    (ht : env.toA2AParts (pendingParts env p event) (pendingIDs env p event) =
      Except.error err) :
    process env p event =
      (Outcome.error ("failed to convert input required parts to A2A parts: " ++ err), p) := by
  unfold process
  cases hc : event.content with
  | none => simp [pendingParts, hc] at h
  | some content =>
    obtain ⟨h1, h2⟩ := pendingParts_eq_collect env p event content hc
    rw [h1] at h
    rw [h1, h2] at ht
    simp [h, ht]

/-- An event with pending parts whose translation succeeds appends the translated parts to
the snapshot, or creates the snapshot from them. -/
theorem process_of_translation_ok (env : Env) (p : Processor) (event : Event)
    (a2aParts : List A2APart) (h : pendingParts env p event ≠ [])
    (ht : env.toA2AParts (pendingParts env p event) (pendingIDs env p event) =
      Except.ok a2aParts) :
    process env p event =
      (Outcome.ok,
        { reqCtx := p.reqCtx
          event := some (match p.event with
            | some ev => appendParts ev a2aParts
            | none => newSnapshot env p.reqCtx a2aParts) }) := by
  unfold process
  cases hc : event.content with
  | none => simp [pendingParts, hc] at h
  | some content =>
    obtain ⟨h1, h2⟩ := pendingParts_eq_collect env p event content hc
    rw [h1] at h
    rw [h1, h2] at ht
    cases hp : p.event with
    | none => simp [h, ht, hp, newSnapshot]
    | some ev => simp [h, ht, hp, appendParts]

/-! ## The resumption validator -/

/-- C1, evaluated on the code: the stored task is suspended on the call `"A"` and the new
input holds the response to `"A"` and nothing else.  The claim asks for success; the code
reads the identifier of the absent function call of the response part and panics. -/
theorem validate_matching_response_panics :
    sampleEnv.toGenAIParts [sampleToA2APart ["A"] (callPart "A")] = Except.ok [callPart "A"] ∧
      validateInputRequiredResumption sampleEnv
        (suspendedReqCtx [sampleToA2APart ["A"] (callPart "A")])
        (some { parts := [responsePart "A"] }) = Outcome.panic := by
  refine ⟨rfl, ?_⟩
  decide

/-- C2, evaluated on the code: the stored task is suspended on the call `"A"` and the new
input holds a response to another call `"B"`.  The claim asks for the error that names
`"A"`; the code reads the identifier of the absent function call of the response part and
panics. -/
theorem validate_unmatched_response_panics :
    sampleEnv.toGenAIParts [sampleToA2APart ["A"] (callPart "A")] = Except.ok [callPart "A"] ∧
      validateInputRequiredResumption sampleEnv
        (suspendedReqCtx [sampleToA2APart ["A"] (callPart "A")])
        (some { parts := [responsePart "B"] }) = Outcome.panic ∧
      validateInputRequiredResumption sampleEnv
        (suspendedReqCtx [sampleToA2APart ["A"] (callPart "A")])
        (some { parts := [responsePart "B"] }) ≠
          Outcome.error ("no input provided for function call ID " ++ sampleEnv.quote "A") := by
  refine ⟨rfl, ?_, ?_⟩ <;> decide

/-- C3: when there is no stored task, or the stored task is not in the input-required
state, or it has no status message, `validateInputRequiredResumption` succeeds for every
new input (an absent one and one without parts included) and for every translation, a
translation that fails on every input included: the translation is not attempted. -/
theorem validate_non_gating (env : Env) (reqCtx : RequestContext) (content : Option Content)
    (h : reqCtx.storedTask = none ∨
      ∃ task, reqCtx.storedTask = some task ∧
        (task.status.state ≠ TaskState.inputRequired ∨ task.status.message = none)) :
    validateInputRequiredResumption env reqCtx content = Outcome.ok := by
  unfold validateInputRequiredResumption
  rcases h with h | ⟨task, htask, h | h⟩
  · simp [h]
  · simp [htask, h]
  · simp [htask, h]

theorem validate_non_gating_witness :
    validateInputRequiredResumption failingEnv
        { taskID := "task-1", contextID := "ctx-1",
          storedTask := some
            { id := "task-1", contextID := "ctx-1",
              status := { state := TaskState.inputRequired, message := none } } }
        (some { parts := [] }) = Outcome.ok :=
  validate_non_gating failingEnv _ _ (Or.inr ⟨_, rfl, Or.inr rfl⟩)

/-! ## The processor -/

/-- Without a snapshot no function response is pending. -/
theorem pendingResponseID_of_no_snapshot (env : Env) (p : Processor) (hp : p.event = none)
    (part : Part) : pendingResponseID env p part = none := by
  unfold pendingResponseID isResponseToLongRunning
  cases part.functionResponse <;> simp [hp]

/-- Without a snapshot the pending parts of an event are its pending calls, and their
identifiers are the call identifiers. -/
theorem pendingParts_of_no_snapshot (env : Env) (p : Processor) (event : Event)
    (content : Content) (hp : p.event = none) (hc : event.content = some content) :
    pendingParts env p event = pendingCalls event content ∧
      pendingIDs env p event = callIDs (pendingCalls event content) := by
  have hresp := pendingResponseID_of_no_snapshot env p hp
  constructor
  · simp only [pendingParts, pendingCalls, hc]
    congr 1
    funext part
    simp [isPending, hresp]
  · simp only [pendingIDs, pendingCalls, callIDs, hc]
    generalize content.parts = parts
    induction parts with
    | nil => simp
    | cons part rest ih =>
      cases hpc : pendingCallID event.longRunningToolIDs part with
      | none => simp [List.filterMap_cons, List.filter_cons, pendingID, hpc, hresp, ih]
      | some id =>
        obtain ⟨fc, h1, _, h3⟩ := (pendingCallID_eq_some_iff event part id).1 hpc
        simp [List.filterMap_cons, List.filter_cons, pendingID, hpc, ih, h1, h3]

/-- C4: on a processor without a snapshot, an event with at least one pending call whose
pending calls (in their order in the event, with their identifiers) are translated
successfully makes `process` return success and leaves a snapshot with role agent, state
input-required, final set, and the translated parts as its parts. -/
theorem process_creates_snapshot (env : Env) (p : Processor) (event : Event)
    (content : Content) (a2aParts : List A2APart)
    (hp : p.event = none) (hc : event.content = some content)
    (hcall : ∃ part ∈ content.parts, IsPendingCall event part)
    (ht : env.toA2AParts (pendingCalls event content) (callIDs (pendingCalls event content)) =
      Except.ok a2aParts) :
    process env p event =
      (Outcome.ok,
        { reqCtx := p.reqCtx
          event := some
            { taskID := p.reqCtx.taskID
              contextID := p.reqCtx.contextID
              state := TaskState.inputRequired
              timestamp := env.now
              message := { id := env.newMessageID, role := MessageRole.agent, parts := a2aParts }
              final := true } }) := by
  obtain ⟨hparts, hids⟩ := pendingParts_of_no_snapshot env p event content hp hc
  have hne : pendingParts env p event ≠ [] := by
    obtain ⟨part, hmem, hpend⟩ := hcall
    rw [hparts]
    intro hnil
    have : part ∈ pendingCalls event content := by
      simp only [pendingCalls, List.mem_filter]
      exact ⟨hmem, (pendingCallID_isSome_iff event part).2 hpend⟩
    rw [hnil] at this
    exact List.not_mem_nil _ this
  rw [← hids, ← hparts] at ht
  rw [process_of_translation_ok env p event a2aParts hne ht, hp]
  rfl

theorem process_creates_snapshot_witness :
    process sampleEnv (newInputRequiredProcessor sampleReqCtx)
        { content := some
            { parts := [textPart "wait", callPart "A", responsePart "B", callPart "C"] },
          longRunningToolIDs := ["A", "C"] } =
      (Outcome.ok,
        { reqCtx := sampleReqCtx
          event := some
            { taskID := "task-1"
              contextID := "ctx-1"
              state := TaskState.inputRequired
              timestamp := 0
              message :=
                { id := "msg-1", role := MessageRole.agent,
                  parts := [sampleToA2APart ["A", "C"] (callPart "A"),
                    sampleToA2APart ["A", "C"] (callPart "C")] }
              final := true } }) :=
  process_creates_snapshot sampleEnv (newInputRequiredProcessor sampleReqCtx)
    { content := some
        { parts := [textPart "wait", callPart "A", responsePart "B", callPart "C"] },
      longRunningToolIDs := ["A", "C"] }
    { parts := [textPart "wait", callPart "A", responsePart "B", callPart "C"] }
    [sampleToA2APart ["A", "C"] (callPart "A"), sampleToA2APart ["A", "C"] (callPart "C")]
    rfl rfl
    ⟨callPart "A", by decide, ⟨{ id := "A", name := "tool", args := [] }, rfl, by decide⟩⟩
    rfl

/-- C5: when the processor holds a snapshot, `process` leaves it holding that snapshot with
the same task, context, state, timestamp, message identifier, role and final flag, and with
the translated pending parts of the event appended to its parts (nothing is appended when the
event has no pending part or their translation fails); the old parts are a prefix of the new
ones. -/
theorem process_appends_to_snapshot (env : Env) (p : Processor) (event : Event)
    (ev : StatusUpdateEvent) (hp : p.event = some ev) :
    (process env p event).2 =
        { reqCtx := p.reqCtx
          event := some
            { taskID := ev.taskID
              contextID := ev.contextID
              state := ev.state
              timestamp := ev.timestamp
              message :=
                { id := ev.message.id, role := ev.message.role,
                  parts := ev.message.parts ++ translatedPending env p event }
              final := ev.final } } ∧
      ev.message.parts <+: ev.message.parts ++ translatedPending env p event := by
  refine ⟨?_, List.prefix_append _ _⟩
  have hsame : p = { reqCtx := p.reqCtx, event := some ev } := by
    cases p
    simp_all
  by_cases hnil : pendingParts env p event = []
  · rw [process_of_no_pending env p event hnil]
    simp only [translatedPending, hnil, if_true, List.append_nil]
    exact hsame
  · cases ht : env.toA2AParts (pendingParts env p event) (pendingIDs env p event) with
    | error err =>
      rw [process_of_translation_error env p event err hnil ht]
      simp only [translatedPending, hnil, if_false, ht, List.append_nil]
      exact hsame
    | ok a2aParts =>
      rw [process_of_translation_ok env p event a2aParts hnil ht]
      simp [translatedPending, hnil, ht, hp, appendParts]

theorem process_appends_to_snapshot_witness :
    (process sampleEnv
        { reqCtx := sampleReqCtx
          event := some (newSnapshot sampleEnv sampleReqCtx [sampleToA2APart ["A"] (callPart "A")]) }
        { content := some { parts := [responsePart "A", callPart "B"] },
          longRunningToolIDs := ["B"] }).2 =
      { reqCtx := sampleReqCtx
        event := some
          { taskID := "task-1"
            contextID := "ctx-1"
            state := TaskState.inputRequired
            timestamp := 0
            message :=
              { id := "msg-1", role := MessageRole.agent,
                parts := [sampleToA2APart ["A"] (callPart "A"),
                  sampleToA2APart ["A", "B"] (responsePart "A"),
                  sampleToA2APart ["A", "B"] (callPart "B")] }
            final := true } } :=
  (process_appends_to_snapshot sampleEnv
    { reqCtx := sampleReqCtx
      event := some (newSnapshot sampleEnv sampleReqCtx [sampleToA2APart ["A"] (callPart "A")]) }
    { content := some { parts := [responsePart "A", callPart "B"] },
      longRunningToolIDs := ["B"] }
    (newSnapshot sampleEnv sampleReqCtx [sampleToA2APart ["A"] (callPart "A")]) rfl).1

/-- C6: on a fresh processor, an event with the function call `X`, flagged long-running,
followed by an event with the function response `X` (flagged or not in that event) leaves,
after two successful calls, one snapshot whose parts are the translated call followed by the
translated response, when the translation of the call is a data part with the function-call
type marker and the stored identifier `X`. -/
theorem cross_event_correlation (env : Env) (reqCtx : RequestContext) (X : String)
    (call resp : Part) (fc : FunctionCall) (fr : FunctionResponse)
    (flagged1 flagged2 : List String) (dc : DataPart) (tr : A2APart)
    (hcall : call.functionCall = some fc) (hfc : fc.id = X) (hflag : X ∈ flagged1)
    (hresp : resp.functionResponse = some fr) (hfr : fr.id = X)
    (hpure : resp.functionCall = none)
    (ht1 : env.toA2AParts [call] [X] = Except.ok [A2APart.data dc])
    (hmark : dc.metadata.lookup env.metaTypeKey = some (AnyVal.str env.typeFunctionCall))
    (hid : dc.data.lookup "id" = some (AnyVal.str X))
    (ht2 : env.toA2AParts [resp] [X] = Except.ok [tr]) :
    (process env (newInputRequiredProcessor reqCtx)
        { content := some { parts := [call] }, longRunningToolIDs := flagged1 }).1 = Outcome.ok ∧
      process env
          (process env (newInputRequiredProcessor reqCtx)
            { content := some { parts := [call] }, longRunningToolIDs := flagged1 }).2
          { content := some { parts := [resp] }, longRunningToolIDs := flagged2 } =
        (Outcome.ok,
          { reqCtx := reqCtx
            event := some
              { taskID := reqCtx.taskID
                contextID := reqCtx.contextID
                state := TaskState.inputRequired
                timestamp := env.now
                message :=
                  { id := env.newMessageID, role := MessageRole.agent,
                    parts := [A2APart.data dc, tr] }
                final := true } }) := by
  have hpc : pendingCallID flagged1 call = some X := by
    simp [pendingCallID, hcall, hfc, hflag]
  have hfirst : process env (newInputRequiredProcessor reqCtx)
      { content := some { parts := [call] }, longRunningToolIDs := flagged1 } =
      (Outcome.ok,
        { reqCtx := reqCtx, event := some (newSnapshot env reqCtx [A2APart.data dc]) }) := by
    have hparts : pendingParts env (newInputRequiredProcessor reqCtx)
        { content := some { parts := [call] }, longRunningToolIDs := flagged1 } = [call] := by
      simp [pendingParts, isPending, hpc]
    have hids : pendingIDs env (newInputRequiredProcessor reqCtx)
        { content := some { parts := [call] }, longRunningToolIDs := flagged1 } = [X] := by
      simp [pendingIDs, pendingID, hpc]
    rw [process_of_translation_ok env _ _ [A2APart.data dc] (by simp [hparts])
      (by rw [hparts, hids]; exact ht1)]
    rfl
  have hrec : isResponseToLongRunning env
      { reqCtx := reqCtx, event := some (newSnapshot env reqCtx [A2APart.data dc]) } X = true := by
    rw [isResponseToLongRunning_iff]
    exact ⟨_, rfl, A2APart.data dc, by simp [newSnapshot], dc, rfl, hmark, hid⟩
  have hnc : pendingCallID flagged2 resp = none := by simp [pendingCallID, hpure]
  have hpr : pendingResponseID env
      { reqCtx := reqCtx, event := some (newSnapshot env reqCtx [A2APart.data dc]) } resp =
      some X := by
    simp [pendingResponseID, hresp, hfr, hrec]
  refine ⟨by rw [hfirst], ?_⟩
  rw [hfirst]
  have hparts : pendingParts env
      { reqCtx := reqCtx, event := some (newSnapshot env reqCtx [A2APart.data dc]) }
      { content := some { parts := [resp] }, longRunningToolIDs := flagged2 } = [resp] := by
    simp [pendingParts, isPending, hpr]
  have hids : pendingIDs env
      { reqCtx := reqCtx, event := some (newSnapshot env reqCtx [A2APart.data dc]) }
      { content := some { parts := [resp] }, longRunningToolIDs := flagged2 } = [X] := by
    simp [pendingIDs, pendingID, hnc, hpr]
  rw [process_of_translation_ok env _ _ [tr] (by simp [hparts])
    (by rw [hparts, hids]; exact ht2)]
  simp [appendParts, newSnapshot]

theorem cross_event_correlation_witness :
    (process sampleEnv (newInputRequiredProcessor sampleReqCtx)
        { content := some { parts := [callPart "call-1"] },
          longRunningToolIDs := ["call-1"] }).1 = Outcome.ok ∧
      process sampleEnv
          (process sampleEnv (newInputRequiredProcessor sampleReqCtx)
            { content := some { parts := [callPart "call-1"] },
              longRunningToolIDs := ["call-1"] }).2
          { content := some { parts := [responsePart "call-1"] }, longRunningToolIDs := [] } =
        (Outcome.ok,
          { reqCtx := sampleReqCtx
            event := some
              { taskID := "task-1"
                contextID := "ctx-1"
                state := TaskState.inputRequired
                timestamp := 0
                message :=
                  { id := "msg-1", role := MessageRole.agent,
                    parts := [A2APart.data
                        { data := [("id", AnyVal.str "call-1"), ("name", AnyVal.str "tool")]
                          metadata := [("adk_type", AnyVal.str "function_call"),
                            ("adk_is_long_running", AnyVal.bool true)] },
                      sampleToA2APart ["call-1"] (responsePart "call-1")] }
                final := true } }) :=
  cross_event_correlation sampleEnv sampleReqCtx "call-1" (callPart "call-1")
    (responsePart "call-1") { id := "call-1", name := "tool", args := [] }
    { id := "call-1", name := "tool", response := [] } ["call-1"] []
    { data := [("id", AnyVal.str "call-1"), ("name", AnyVal.str "tool")]
      metadata := [("adk_type", AnyVal.str "function_call"),
        ("adk_is_long_running", AnyVal.bool true)] }
    (sampleToA2APart ["call-1"] (responsePart "call-1"))
    rfl rfl (by decide) rfl rfl rfl rfl rfl rfl rfl

/-- Membership in the parts that the loop of `process` collects. -/
theorem mem_collect_iff (env : Env) (p : Processor) (event : Event) (content : Content)
    (part : Part) :
    part ∈ (collect env p event content).1 ↔
      part ∈ content.parts ∧ (IsPendingCall event part ∨ IsPendingResponse env p part) := by
  rw [collect_eq]
  simp only [List.mem_filter, isPending_iff]

/-- C7: a part of an event that is a function response (and not a function call) with
identifier `X` is among the parts that `process` collects for the translation only if the
snapshot held before the call has a part that records a function call with identifier `X`;
it is collected exactly in that case, so a response to a call that is not recorded is not
collected and nothing is added to the snapshot for it. -/
theorem response_collected_only_if_call_recorded (env : Env) (p : Processor) (event : Event)
    (content : Content) (part : Part) (fr : FunctionResponse)
    (hmem : part ∈ content.parts) (hpure : part.functionCall = none)
    (hfr : part.functionResponse = some fr) :
    (part ∈ (collect env p event content).1 → HasRecordedCall env p fr.id) ∧
      (¬ HasRecordedCall env p fr.id → part ∉ (collect env p event content).1) ∧
      (HasRecordedCall env p fr.id → part ∈ (collect env p event content).1) := by
  have hnocall : ¬ IsPendingCall event part := by
    rintro ⟨fc, h, _⟩
    rw [hpure] at h
    cases h
  have hiff : part ∈ (collect env p event content).1 ↔ HasRecordedCall env p fr.id := by
    rw [mem_collect_iff]
    constructor
    · rintro ⟨_, h | ⟨fr2, h1, h2⟩⟩
      · exact absurd h hnocall
      · rw [hfr] at h1
        cases h1
        exact h2
    · intro h
      exact ⟨hmem, Or.inr ⟨fr, hfr, h⟩⟩
  exact ⟨hiff.1, fun hno hin => hno (hiff.1 hin), hiff.2⟩

theorem response_collected_only_if_call_recorded_witness :
    (responsePart "A" ∈ (collect sampleEnv
          { reqCtx := sampleReqCtx
            event := some
              (newSnapshot sampleEnv sampleReqCtx [sampleToA2APart ["A"] (callPart "A")]) }
          { content := some { parts := [responsePart "A"] }, longRunningToolIDs := [] }
          { parts := [responsePart "A"] }).1 →
        HasRecordedCall sampleEnv
          { reqCtx := sampleReqCtx
            event := some
              (newSnapshot sampleEnv sampleReqCtx [sampleToA2APart ["A"] (callPart "A")]) }
          "A") ∧
      responsePart "A" ∈ (collect sampleEnv
          { reqCtx := sampleReqCtx
            event := some
              (newSnapshot sampleEnv sampleReqCtx [sampleToA2APart ["A"] (callPart "A")]) }
          { content := some { parts := [responsePart "A"] }, longRunningToolIDs := [] }
          { parts := [responsePart "A"] }).1 :=
  ⟨(response_collected_only_if_call_recorded sampleEnv
      { reqCtx := sampleReqCtx
        event := some
          (newSnapshot sampleEnv sampleReqCtx [sampleToA2APart ["A"] (callPart "A")]) }
      { content := some { parts := [responsePart "A"] }, longRunningToolIDs := [] }
      { parts := [responsePart "A"] } (responsePart "A")
      { id := "A", name := "tool", response := [] } (by decide) rfl rfl).1,
    by decide⟩

/-- C8, the claim fails: on a fresh processor, one event with the function call `"X"`,
flagged long-running, followed by the function response `"X"` hands only the call to the
translation, and the snapshot holds the translated call and not the translated response. -/
theorem same_event_response_not_recorded :
    (collect sampleEnv (newInputRequiredProcessor sampleReqCtx)
        { content := some { parts := [callPart "X", responsePart "X"] },
          longRunningToolIDs := ["X"] }
        { parts := [callPart "X", responsePart "X"] }) = ([callPart "X"], ["X"]) ∧
      (process sampleEnv (newInputRequiredProcessor sampleReqCtx)
        { content := some { parts := [callPart "X", responsePart "X"] },
          longRunningToolIDs := ["X"] }) =
        (Outcome.ok,
          { reqCtx := sampleReqCtx
            event := some (newSnapshot sampleEnv sampleReqCtx
              [sampleToA2APart ["X"] (callPart "X")]) }) ∧
      sampleToA2APart ["X"] (responsePart "X") ∉ [sampleToA2APart ["X"] (callPart "X")] := by
  refine ⟨?_, ?_, ?_⟩ <;> decide

/-- C8 as amended: in one event whose parts contain the function call `X`, flagged
long-running, and the function response `X`, the call is collected, and the response is
collected exactly when the snapshot held before the call to `process` has a part that
records a call with identifier `X`; on a processor without a snapshot the response is not
collected. -/
theorem same_event_call_and_response (env : Env) (p : Processor) (event : Event)
    (content : Content) (X : String) (call resp : Part) (fc : FunctionCall)
    (fr : FunctionResponse)
    (hcmem : call ∈ content.parts) (hcall : call.functionCall = some fc) (hfc : fc.id = X)
    (hflag : X ∈ event.longRunningToolIDs)
    (hrmem : resp ∈ content.parts) (hpure : resp.functionCall = none)
    (hresp : resp.functionResponse = some fr) (hfr : fr.id = X) :
    call ∈ (collect env p event content).1 ∧
      (resp ∈ (collect env p event content).1 ↔ HasRecordedCall env p X) ∧
      (p.event = none → resp ∉ (collect env p event content).1) := by
  have hnocall : ¬ IsPendingCall event resp := by
    rintro ⟨fc2, h, _⟩
    rw [hpure] at h
    cases h
  have hiff : resp ∈ (collect env p event content).1 ↔ HasRecordedCall env p X := by
    rw [mem_collect_iff]
    constructor
    · rintro ⟨_, h | ⟨fr2, h1, h2⟩⟩
      · exact absurd h hnocall
      · rw [hresp] at h1
        cases h1
        rw [← hfr]
        exact h2
    · intro h
      exact ⟨hrmem, Or.inr ⟨fr, hresp, by rw [hfr]; exact h⟩⟩
  refine ⟨?_, hiff, ?_⟩
  · rw [mem_collect_iff]
    exact ⟨hcmem, Or.inl ⟨fc, hcall, by rw [hfc]; exact hflag⟩⟩
  · intro hnone hin
    obtain ⟨ev, hev, _⟩ := hiff.1 hin
    rw [hnone] at hev
    cases hev

theorem same_event_call_and_response_witness :
    callPart "X" ∈ (collect sampleEnv (newInputRequiredProcessor sampleReqCtx)
        { content := some { parts := [callPart "X", responsePart "X"] },
          longRunningToolIDs := ["X"] }
        { parts := [callPart "X", responsePart "X"] }).1 ∧
      responsePart "X" ∉ (collect sampleEnv (newInputRequiredProcessor sampleReqCtx)
        { content := some { parts := [callPart "X", responsePart "X"] },
          longRunningToolIDs := ["X"] }
        { parts := [callPart "X", responsePart "X"] }).1 :=
  have h := same_event_call_and_response sampleEnv (newInputRequiredProcessor sampleReqCtx)
    { content := some { parts := [callPart "X", responsePart "X"] },
      longRunningToolIDs := ["X"] }
    { parts := [callPart "X", responsePart "X"] } "X" (callPart "X") (responsePart "X")
    { id := "X", name := "tool", args := [] } { id := "X", name := "tool", response := [] }
    (by decide) rfl rfl (by decide) (by decide) rfl rfl rfl
  ⟨h.1, h.2.2 rfl⟩

/-- An event none of whose parts is a pending call or a pending response has no pending
parts. -/
theorem pendingParts_eq_nil (env : Env) (p : Processor) (event : Event)
    (h : ∀ content, event.content = some content →
      ∀ part ∈ content.parts, ¬ IsPendingCall event part ∧ ¬ IsPendingResponse env p part) :
    pendingParts env p event = [] := by
  unfold pendingParts
  cases hc : event.content with
  | none => rfl
  | some content =>
    simp only [List.filter_eq_nil_iff]
    intro part hmem hpend
    rcases (isPending_iff env p event part).1 hpend with hcall | hrespn
    · exact (h content hc part hmem).1 hcall
    · exact (h content hc part hmem).2 hrespn

/-- C9: on a fresh processor, a sequence of events in none of which a function call has its
identifier among the long-running identifiers of its event is processed with success at
every event, and the processor holds no snapshot at the end, whatever function responses
the events carry. -/
theorem no_long_running_never_suspends (env : Env) (reqCtx : RequestContext)
    (events : List Event)
    (h : ∀ event ∈ events, ∀ content, event.content = some content →
      ∀ part ∈ content.parts, ∀ fc, part.functionCall = some fc →
        fc.id ∉ event.longRunningToolIDs) :
    (processAll env (newInputRequiredProcessor reqCtx) events).1 =
        List.replicate events.length Outcome.ok ∧
      (processAll env (newInputRequiredProcessor reqCtx) events).2.event = none ∧
      (processAll env (newInputRequiredProcessor reqCtx) events).2 =
        newInputRequiredProcessor reqCtx := by
  have hstep : ∀ event ∈ events,
      process env (newInputRequiredProcessor reqCtx) event =
        (Outcome.ok, newInputRequiredProcessor reqCtx) := by
    intro event hmem
    apply process_of_no_pending
    apply pendingParts_eq_nil
    intro content hc part hpart
    constructor
    · rintro ⟨fc, hfc, hin⟩
      exact h event hmem content hc part hpart fc hfc hin
    · rintro ⟨fr, _, ev, hev, _⟩
      cases hev
  have hall : processAll env (newInputRequiredProcessor reqCtx) events =
      (List.replicate events.length Outcome.ok, newInputRequiredProcessor reqCtx) := by
    clear h
    induction events with
    | nil => rfl
    | cons event rest ih =>
      have h1 := hstep event (List.mem_cons_self _ _)
      have h2 := ih (fun e he => hstep e (List.mem_cons_of_mem _ he))
      simp [processAll, h1, h2, List.replicate_succ]
  rw [hall]
  exact ⟨rfl, rfl, rfl⟩

theorem no_long_running_never_suspends_witness :
    (processAll failingEnv (newInputRequiredProcessor sampleReqCtx)
        [{ content := some { parts := [textPart "hello", callPart "A"] },
            longRunningToolIDs := ["B"] },
          { content := none, longRunningToolIDs := ["A"] },
          { content := some { parts := [responsePart "A", responsePart "B"] },
            longRunningToolIDs := ["A", "B"] }]).1 =
        [Outcome.ok, Outcome.ok, Outcome.ok] ∧
      (processAll failingEnv (newInputRequiredProcessor sampleReqCtx)
        [{ content := some { parts := [textPart "hello", callPart "A"] },
            longRunningToolIDs := ["B"] },
          { content := none, longRunningToolIDs := ["A"] },
          { content := some { parts := [responsePart "A", responsePart "B"] },
            longRunningToolIDs := ["A", "B"] }]).2.event = none :=
  have h := no_long_running_never_suspends failingEnv sampleReqCtx
    [{ content := some { parts := [textPart "hello", callPart "A"] },
        longRunningToolIDs := ["B"] },
      { content := none, longRunningToolIDs := ["A"] },
      { content := some { parts := [responsePart "A", responsePart "B"] },
        longRunningToolIDs := ["A", "B"] }]
    (by
      intro event hmem content hc part hpart fc hfc
      simp only [List.mem_cons, List.mem_singleton, List.not_mem_nil, or_false] at hmem
      rcases hmem with rfl | rfl | rfl
      · cases hc
        simp only [List.mem_cons, List.mem_singleton, List.not_mem_nil, or_false] at hpart
        rcases hpart with rfl | rfl
        · cases hfc
        · cases hfc
          decide
      · cases hc
      · cases hc
        simp only [List.mem_cons, List.mem_singleton, List.not_mem_nil, or_false] at hpart
        rcases hpart with rfl | rfl <;> cases hfc)
  ⟨h.1, h.2.1⟩

/-- C10: for every processor, with or without a snapshot, an event that has no content, or
no parts, or no part that is a pending call or a pending response makes `process` return
success and leaves the processor as it was, for every translation, one that fails on every
input included: the translation is not invoked. -/
theorem process_no_pending_is_noop (env : Env) (p : Processor) (event : Event)
    (h : event.content = none ∨
      ∃ content, event.content = some content ∧
        ∀ part ∈ content.parts, ¬ IsPendingCall event part ∧ ¬ IsPendingResponse env p part) :
    process env p event = (Outcome.ok, p) := by
  apply process_of_no_pending
  apply pendingParts_eq_nil
  intro content hc part hpart
  rcases h with h | ⟨content2, hc2, h⟩
  · rw [h] at hc
    cases hc
  · rw [hc2] at hc
    cases hc
    exact h part hpart

theorem process_no_pending_is_noop_witness :
    process failingEnv
        { reqCtx := sampleReqCtx
          event := some
            (newSnapshot sampleEnv sampleReqCtx [sampleToA2APart ["A"] (callPart "A")]) }
        { content := some { parts := [textPart "hello", callPart "B", responsePart "C"] },
          longRunningToolIDs := ["A"] } =
      (Outcome.ok,
        { reqCtx := sampleReqCtx
          event := some
            (newSnapshot sampleEnv sampleReqCtx [sampleToA2APart ["A"] (callPart "A")]) }) :=
  process_no_pending_is_noop failingEnv
    { reqCtx := sampleReqCtx
      event := some
        (newSnapshot sampleEnv sampleReqCtx [sampleToA2APart ["A"] (callPart "A")]) }
    { content := some { parts := [textPart "hello", callPart "B", responsePart "C"] },
      longRunningToolIDs := ["A"] }
    (Or.inr ⟨{ parts := [textPart "hello", callPart "B", responsePart "C"] }, rfl, by
      intro part hpart
      rw [← pendingCallID_isSome_iff, ← pendingResponseID_isSome_iff]
      simp only [List.mem_cons, List.mem_singleton, List.not_mem_nil, or_false] at hpart
      rcases hpart with rfl | rfl | rfl <;> decide⟩)

/-- C11: for every processor and every event with at least one pending part, when the
translation of the collected parts fails, `process` returns the translation error behind the
text "failed to convert input required parts to A2A parts: " and the processor is what it
was: no snapshot is created and nothing is appended to an existing one. -/
theorem process_translation_failure_is_atomic (env : Env) (p : Processor) (event : Event)
    (content : Content) (err : String)
    (hc : event.content = some content)
    (hpend : ∃ part ∈ content.parts, IsPendingCall event part ∨ IsPendingResponse env p part)
    (ht : env.toA2AParts (collect env p event content).1 (collect env p event content).2 =
      Except.error err) :
    process env p event =
        (Outcome.error ("failed to convert input required parts to A2A parts: " ++ err), p) ∧
      (process env p event).2.event = p.event := by
  obtain ⟨h1, h2⟩ := pendingParts_eq_collect env p event content hc
  have hne : pendingParts env p event ≠ [] := by
    obtain ⟨part, hmem, hkind⟩ := hpend
    intro hnil
    have hin : part ∈ (collect env p event content).1 :=
      (mem_collect_iff env p event content part).2 ⟨hmem, hkind⟩
    rw [← h1, hnil] at hin
    exact List.not_mem_nil _ hin
  rw [← h1, ← h2] at ht
  have hres := process_of_translation_error env p event err hne ht
  exact ⟨hres, by rw [hres]⟩

theorem process_translation_failure_is_atomic_witness :
    process failingEnv
        { reqCtx := sampleReqCtx
          event := some
            (newSnapshot sampleEnv sampleReqCtx [sampleToA2APart ["A"] (callPart "A")]) }
        { content := some { parts := [responsePart "A", callPart "B"] },
          longRunningToolIDs := ["B"] } =
      (Outcome.error "failed to convert input required parts to A2A parts: invalid part",
        { reqCtx := sampleReqCtx
          event := some
            (newSnapshot sampleEnv sampleReqCtx [sampleToA2APart ["A"] (callPart "A")]) }) :=
  (process_translation_failure_is_atomic failingEnv
    { reqCtx := sampleReqCtx
      event := some
        (newSnapshot sampleEnv sampleReqCtx [sampleToA2APart ["A"] (callPart "A")]) }
    { content := some { parts := [responsePart "A", callPart "B"] },
      longRunningToolIDs := ["B"] }
    { parts := [responsePart "A", callPart "B"] } "invalid part" rfl
    ⟨callPart "B", by decide,
      Or.inl ⟨{ id := "B", name := "tool", args := [] }, rfl, by decide⟩⟩
    rfl).1

/-- One call to `process` keeps an existing snapshot and its final flag, state and role. -/
theorem process_keeps_status (env : Env) (p : Processor) (event : Event)
    (ev : StatusUpdateEvent) (hp : p.event = some ev) :
    ∃ ev2, (process env p event).2.event = some ev2 ∧ ev2.final = ev.final ∧
      ev2.state = ev.state ∧ ev2.message.role = ev.message.role := by
  by_cases hnil : pendingParts env p event = []
  · rw [process_of_no_pending env p event hnil]
    exact ⟨ev, hp, rfl, rfl, rfl⟩
  · cases ht : env.toA2AParts (pendingParts env p event) (pendingIDs env p event) with
    | error err =>
      rw [process_of_translation_error env p event err hnil ht]
      exact ⟨ev, hp, rfl, rfl, rfl⟩
    | ok a2aParts =>
      rw [process_of_translation_ok env p event a2aParts hnil ht, hp]
      exact ⟨appendParts ev a2aParts, rfl, rfl, rfl, rfl⟩

/-- One call to `process` leaves a snapshot with the suspended status when the snapshot, if
any, had it before. -/
theorem process_preserves_suspended_status (env : Env) (p : Processor) (event : Event)
    (hinv : ∀ ev, p.event = some ev → HasSuspendedStatus ev) :
    ∀ ev, (process env p event).2.event = some ev → HasSuspendedStatus ev := by
  intro ev2 hev2
  cases hp : p.event with
  | some ev =>
    obtain ⟨ev3, h3, hf, hs, hr⟩ := process_keeps_status env p event ev hp
    rw [h3] at hev2
    cases hev2
    obtain ⟨i1, i2, i3⟩ := hinv ev hp
    exact ⟨hf.trans i1, hs.trans i2, hr.trans i3⟩
  | none =>
    by_cases hnil : pendingParts env p event = []
    · rw [process_of_no_pending env p event hnil, hp] at hev2
      cases hev2
    · cases ht : env.toA2AParts (pendingParts env p event) (pendingIDs env p event) with
      | error err =>
        rw [process_of_translation_error env p event err hnil ht, hp] at hev2
        cases hev2
      | ok a2aParts =>
        rw [process_of_translation_ok env p event a2aParts hnil ht, hp] at hev2
        cases hev2
        exact ⟨rfl, rfl, rfl⟩

/-- Processing a sequence of events leaves a snapshot with the suspended status when the
snapshot, if any, had it at the start. -/
theorem processAll_preserves_suspended_status (env : Env) (events : List Event) :
    ∀ p : Processor, (∀ ev, p.event = some ev → HasSuspendedStatus ev) →
      ∀ ev, (processAll env p events).2.event = some ev → HasSuspendedStatus ev := by
  induction events with
  | nil =>
    intro p hinv ev hev
    exact hinv ev hev
  | cons event rest ih =>
    intro p hinv ev hev
    exact ih (process env p event).2 (process_preserves_suspended_status env p event hinv) ev hev

/-- C13: after every sequence of events processed on a fresh processor, a snapshot that the
processor holds is final, in state input-required, with a message of role agent; and one
call to `process` on a processor that holds a snapshot leaves it holding a snapshot with the
same final flag, state and role. -/
theorem snapshot_status_invariant (env : Env) (reqCtx : RequestContext)
    (events : List Event) :
    (∀ ev, (processAll env (newInputRequiredProcessor reqCtx) events).2.event = some ev →
        ev.final = true ∧ ev.state = TaskState.inputRequired ∧
          ev.message.role = MessageRole.agent) ∧
      (∀ (p : Processor) (event : Event) (ev : StatusUpdateEvent), p.event = some ev →
        ∃ ev2, (process env p event).2.event = some ev2 ∧ ev2.final = ev.final ∧
          ev2.state = ev.state ∧ ev2.message.role = ev.message.role) := by
  refine ⟨?_, fun p event ev hp => process_keeps_status env p event ev hp⟩
  intro ev hev
  have hfresh : ∀ ev, (newInputRequiredProcessor reqCtx).event = some ev →
      HasSuspendedStatus ev := by
    intro ev0 h0
    cases h0
  exact processAll_preserves_suspended_status env events _ hfresh ev hev

theorem snapshot_status_invariant_witness :
    (processAll sampleEnv (newInputRequiredProcessor sampleReqCtx)
        [{ content := some { parts := [callPart "A"] }, longRunningToolIDs := ["A"] },
          { content := some { parts := [textPart "waiting"] }, longRunningToolIDs := [] },
          { content := some { parts := [responsePart "A"] }, longRunningToolIDs := [] }]).2.event =
        some (newSnapshot sampleEnv sampleReqCtx
          [sampleToA2APart ["A"] (callPart "A"), sampleToA2APart ["A"] (responsePart "A")]) ∧
      (newSnapshot sampleEnv sampleReqCtx
        [sampleToA2APart ["A"] (callPart "A"),
          sampleToA2APart ["A"] (responsePart "A")]).final = true ∧
      (newSnapshot sampleEnv sampleReqCtx
        [sampleToA2APart ["A"] (callPart "A"),
          sampleToA2APart ["A"] (responsePart "A")]).state = TaskState.inputRequired ∧
      (newSnapshot sampleEnv sampleReqCtx
        [sampleToA2APart ["A"] (callPart "A"),
          sampleToA2APart ["A"] (responsePart "A")]).message.role = MessageRole.agent :=
  ⟨by decide,
    (snapshot_status_invariant sampleEnv sampleReqCtx
      [{ content := some { parts := [callPart "A"] }, longRunningToolIDs := ["A"] },
        { content := some { parts := [textPart "waiting"] }, longRunningToolIDs := [] },
        { content := some { parts := [responsePart "A"] }, longRunningToolIDs := [] }]).1
      (newSnapshot sampleEnv sampleReqCtx
        [sampleToA2APart ["A"] (callPart "A"), sampleToA2APart ["A"] (responsePart "A")])
      (by decide)⟩

/-- C14: for a stored task in the input-required state whose status message fails to
translate, `validateInputRequiredResumption` returns the translation error behind the text
"failed to parse task status message: ", for every new input, an absent one included: the
input is not read. -/
theorem validate_rejects_corrupted_state (env : Env) (reqCtx : RequestContext)
    (content : Option Content) (task : Task) (statusMsg : Message) (err : String)
    (htask : reqCtx.storedTask = some task)
    (hstate : task.status.state = TaskState.inputRequired)
    (hmsg : task.status.message = some statusMsg)
    (ht : env.toGenAIParts statusMsg.parts = Except.error err) :
    validateInputRequiredResumption env reqCtx content =
      Outcome.error ("failed to parse task status message: " ++ err) := by
  unfold validateInputRequiredResumption
  simp [htask, hstate, hmsg, ht]

theorem validate_rejects_corrupted_state_witness :
    validateInputRequiredResumption sampleEnv (suspendedReqCtx [A2APart.file "report.pdf"])
        none =
      Outcome.error "failed to parse task status message: unsupported part" :=
  validate_rejects_corrupted_state sampleEnv (suspendedReqCtx [A2APart.file "report.pdf"])
    none
    { id := "task-1", contextID := "ctx-1",
      status :=
        { state := TaskState.inputRequired,
          message := some
            { id := "msg-1", role := MessageRole.agent,
              parts := [A2APart.file "report.pdf"] } } }
    { id := "msg-1", role := MessageRole.agent, parts := [A2APart.file "report.pdf"] }
    "unsupported part" rfl rfl rfl rfl

/-- C12, evaluated on the code: a fresh processor processes one event with the call
`"call-1"`, flagged long-running; the snapshot is stored as the status message of a task in
the input-required state, and the translation back gives the call again.  A new input with
the response to `"call-1"` makes the validator panic where the claim asks for success, and a
new input with a response to another call makes it panic where the claim asks for the error
that names `"call-1"`; that error is returned for an input without function responses. -/
theorem round_trip_validation_panics :
    (storeSnapshot (process sampleEnv (newInputRequiredProcessor sampleReqCtx)
        { content := some { parts := [callPart "call-1"] },
          longRunningToolIDs := ["call-1"] }).2) =
        suspendedReqCtx [sampleToA2APart ["call-1"] (callPart "call-1")] ∧
      sampleEnv.toGenAIParts [sampleToA2APart ["call-1"] (callPart "call-1")] =
        Except.ok [callPart "call-1"] ∧
      validateInputRequiredResumption sampleEnv
        (storeSnapshot (process sampleEnv (newInputRequiredProcessor sampleReqCtx)
          { content := some { parts := [callPart "call-1"] },
            longRunningToolIDs := ["call-1"] }).2)
        (some { parts := [textPart "done", responsePart "call-1"] }) = Outcome.panic ∧
      validateInputRequiredResumption sampleEnv
        (storeSnapshot (process sampleEnv (newInputRequiredProcessor sampleReqCtx)
          { content := some { parts := [callPart "call-1"] },
            longRunningToolIDs := ["call-1"] }).2)
        (some { parts := [responsePart "call-2"] }) = Outcome.panic ∧
      validateInputRequiredResumption sampleEnv
        (storeSnapshot (process sampleEnv (newInputRequiredProcessor sampleReqCtx)
          { content := some { parts := [callPart "call-1"] },
            longRunningToolIDs := ["call-1"] }).2)
        (some { parts := [textPart "done"] }) =
          Outcome.error "no input provided for function call ID \"call-1\"" := by
  refine ⟨?_, rfl, ?_, ?_, ?_⟩ <;> decide

/-- The loop of `process` does not depend on the translation to external parts. -/
theorem collect_withToA2AParts (env : Env)
    (f : List Part → List String → Except String (List A2APart)) (p : Processor)
    (event : Event) (content : Content) :
    collect (env.withToA2AParts f) p event content = collect env p event content := by
  have hrec : ∀ id, isRecordedCall (env.withToA2AParts f) id = isRecordedCall env id := by
    intro id
    funext part
    rfl
  have hresp : ∀ part, pendingResponseID (env.withToA2AParts f) p part =
      pendingResponseID env p part := by
    intro part
    simp only [pendingResponseID, isResponseToLongRunning, hrec]
  rw [collect_eq, collect_eq]
  have h1 : isPending (env.withToA2AParts f) p event.longRunningToolIDs =
      isPending env p event.longRunningToolIDs := by
    funext part
    simp only [isPending, hresp]
  have h2 : pendingID (env.withToA2AParts f) p event.longRunningToolIDs =
      pendingID env p event.longRunningToolIDs := by
    funext part
    simp only [pendingID, hresp]
  rw [h1, h2]

/-- The identifier that the loop of `process` records for a part. -/
theorem pendingID_eq_some_iff (env : Env) (p : Processor) (event : Event) (part : Part)
    (id : String) :
    pendingID env p event.longRunningToolIDs part = some id ↔
      IsCollectedID env p event part id := by
  unfold pendingID IsCollectedID
  cases hc : pendingCallID event.longRunningToolIDs part with
  | some id2 =>
    have hcall := (pendingCallID_eq_some_iff event part id2).1 hc
    obtain ⟨fc, h1, h2, h3⟩ := hcall
    constructor
    · intro h
      cases h
      exact Or.inl ⟨fc, h1, h2, h3⟩
    · rintro (⟨fc2, g1, _, g3⟩ | ⟨hno, _⟩)
      · rw [h1] at g1
        cases g1
        rw [← h3, g3]
      · exact absurd ⟨fc, h1, h2⟩ hno
  | none =>
    have hno : ¬ IsPendingCall event part := by
      intro h
      have := (pendingCallID_isSome_iff event part).2 h
      rw [hc] at this
      cases this
    simp only [pendingResponseID_eq_some_iff]
    constructor
    · intro h
      exact Or.inr ⟨hno, h⟩
    · rintro (⟨fc, g1, g2, _⟩ | ⟨_, h⟩)
      · exact absurd ⟨fc, g1, g2⟩ hno
      · exact h

/-- The loop of `process` keeps a part exactly when it records an identifier for it. -/
theorem isPending_eq_isSome (env : Env) (p : Processor) (longRunning : List String)
    (part : Part) :
    isPending env p longRunning part = (pendingID env p longRunning part).isSome := by
  unfold isPending pendingID
  cases pendingCallID longRunning part <;> simp

/-- The collected parts and the collected identifiers go together, entry by entry. -/
theorem collected_ids_parallel (env : Env) (p : Processor) (event : Event)
    (parts : List Part) :
    List.Forall₂ (IsCollectedID env p event)
      (parts.filter (isPending env p event.longRunningToolIDs))
      (parts.filterMap (pendingID env p event.longRunningToolIDs)) := by
  induction parts with
  | nil => exact List.Forall₂.nil
  | cons part rest ih =>
    have hk := isPending_eq_isSome env p event.longRunningToolIDs part
    cases hid : pendingID env p event.longRunningToolIDs part with
    | none =>
      rw [hid] at hk
      simp only [List.filter_cons, List.filterMap_cons, hid, hk]
      simpa using ih
    | some id =>
      rw [hid] at hk
      simp only [List.filter_cons, List.filterMap_cons, hid, hk]
      exact List.Forall₂.cons ((pendingID_eq_some_iff env p event part id).1 hid) ih

/-- C15: the parts that `process` collects are the parts of the event that are pending
calls or pending responses (with respect to the snapshot held before the call), in their
order in the event, so every long-running call of the event is among them; the identifier
list has the same length and holds, entry by entry, the call or response identifier of the
collected part; and `process` uses the translation at these two lists only. -/
theorem collect_is_ordered_filter (env : Env) (p : Processor) (event : Event)
    (content : Content) :
    (∃ keep : Part → Bool,
        (∀ part, keep part = true ↔ (IsPendingCall event part ∨ IsPendingResponse env p part)) ∧
          (collect env p event content).1 = content.parts.filter keep) ∧
      (∀ part ∈ content.parts, IsPendingCall event part →
        part ∈ (collect env p event content).1) ∧
      (collect env p event content).2.length = (collect env p event content).1.length ∧
      List.Forall₂ (IsCollectedID env p event) (collect env p event content).1
        (collect env p event content).2 ∧
      (event.content = some content →
        ∀ f : List Part → List String → Except String (List A2APart),
          f (collect env p event content).1 (collect env p event content).2 =
              env.toA2AParts (collect env p event content).1 (collect env p event content).2 →
            process (env.withToA2AParts f) p event = process env p event) := by
  have hpar := collected_ids_parallel env p event content.parts
  refine ⟨⟨isPending env p event.longRunningToolIDs, fun part => isPending_iff env p event part,
    by rw [collect_eq]⟩, ?_, ?_, ?_, ?_⟩
  · intro part hmem hcall
    exact (mem_collect_iff env p event content part).2 ⟨hmem, Or.inl hcall⟩
  · rw [collect_eq]
    exact hpar.length_eq.symm
  · rw [collect_eq]
    exact hpar
  · intro hc f hf
    unfold process
    simp only [hc, collect_withToA2AParts]
    by_cases hlen : (collect env p event content).1.length = 0
    · simp [hlen]
    · simp only [hlen, if_false]
      have hf2 : (env.withToA2AParts f).toA2AParts (collect env p event content).1
          (collect env p event content).2 =
          env.toA2AParts (collect env p event content).1 (collect env p event content).2 := hf
      rw [hf2]
      rfl

theorem collect_is_ordered_filter_witness :
    callPart "C" ∈ (collect sampleEnv
        { reqCtx := sampleReqCtx
          event := some
            (newSnapshot sampleEnv sampleReqCtx [sampleToA2APart ["A"] (callPart "A")]) }
        { content := some
            { parts := [textPart "t", callPart "B", responsePart "A", callPart "C"] },
          longRunningToolIDs := ["B", "C"] }
        { parts := [textPart "t", callPart "B", responsePart "A", callPart "C"] }).1 ∧
      collect sampleEnv
        { reqCtx := sampleReqCtx
          event := some
            (newSnapshot sampleEnv sampleReqCtx [sampleToA2APart ["A"] (callPart "A")]) }
        { content := some
            { parts := [textPart "t", callPart "B", responsePart "A", callPart "C"] },
          longRunningToolIDs := ["B", "C"] }
        { parts := [textPart "t", callPart "B", responsePart "A", callPart "C"] } =
        ([callPart "B", responsePart "A", callPart "C"], ["B", "A", "C"]) :=
  ⟨(collect_is_ordered_filter sampleEnv
      { reqCtx := sampleReqCtx
        event := some
          (newSnapshot sampleEnv sampleReqCtx [sampleToA2APart ["A"] (callPart "A")]) }
      { content := some
          { parts := [textPart "t", callPart "B", responsePart "A", callPart "C"] },
        longRunningToolIDs := ["B", "C"] }
      { parts := [textPart "t", callPart "B", responsePart "A", callPart "C"] }).2.1
      (callPart "C") (by decide)
      ⟨{ id := "C", name := "tool", args := [] }, rfl, by decide⟩,
    by decide⟩

/-- C16: `isResponseToLongRunning` is true exactly when the processor holds a snapshot one of
whose parts is a data part with the function-call marker as type metadata and the string
`id` as datum `"id"`; it is false without a snapshot, and false on a snapshot none of whose
data parts has the function-call marker, whatever identifiers they store. -/
theorem isResponseToLongRunning_characterisation (env : Env) (p : Processor) (id : String) :
    (isResponseToLongRunning env p id = true ↔
        ∃ ev, p.event = some ev ∧ ∃ part ∈ ev.message.parts, ∃ dp, part = A2APart.data dp ∧
          dp.metadata.lookup env.metaTypeKey = some (AnyVal.str env.typeFunctionCall) ∧
          dp.data.lookup "id" = some (AnyVal.str id)) ∧
      (p.event = none → isResponseToLongRunning env p id = false) ∧
      (∀ ev, p.event = some ev →
        (∀ part ∈ ev.message.parts, ∀ dp, part = A2APart.data dp →
          dp.metadata.lookup env.metaTypeKey ≠ some (AnyVal.str env.typeFunctionCall)) →
        isResponseToLongRunning env p id = false) := by
  have hiff := isResponseToLongRunning_iff env p id
  refine ⟨hiff, ?_, ?_⟩
  · intro hnone
    cases hb : isResponseToLongRunning env p id with
    | false => rfl
    | true =>
      obtain ⟨ev, hev, _⟩ := hiff.1 hb
      rw [hnone] at hev
      cases hev
  · intro ev hev hnomark
    cases hb : isResponseToLongRunning env p id with
    | false => rfl
    | true =>
      obtain ⟨ev2, hev2, part, hmem, dp, hdp, hmark, _⟩ := hiff.1 hb
      rw [hev] at hev2
      cases hev2
      exact absurd hmark (hnomark part hmem dp hdp)

theorem isResponseToLongRunning_characterisation_witness :
    isResponseToLongRunning sampleEnv
        { reqCtx := sampleReqCtx
          event := some (newSnapshot sampleEnv sampleReqCtx
            [sampleToA2APart [] (responsePart "A"), A2APart.text "A"]) }
        "A" = false :=
  (isResponseToLongRunning_characterisation sampleEnv
    { reqCtx := sampleReqCtx
      event := some (newSnapshot sampleEnv sampleReqCtx
        [sampleToA2APart [] (responsePart "A"), A2APart.text "A"]) }
    "A").2.2
    (newSnapshot sampleEnv sampleReqCtx
      [sampleToA2APart [] (responsePart "A"), A2APart.text "A"])
    rfl
    (by
      intro part hmem dp hdp
      simp only [newSnapshot, List.mem_cons, List.mem_singleton, List.not_mem_nil,
        or_false] at hmem
      rcases hmem with rfl | rfl
      · cases hdp
        decide
      · cases hdp)

/-- On an input in which every part is of a single kind and some part is a function
response, the search of lines 114-116 reads the identifier of an absent function call. -/
theorem containsFunc_matchesResponse_panics (taskPart : Part) (parts : List Part)
    (hkind : ∀ part ∈ parts, IsSingleKind part)
    (hresp : ∃ part ∈ parts, part.functionResponse ≠ none) :
    containsFunc (matchesResponse taskPart) parts = none := by
  induction parts with
  | nil =>
    obtain ⟨part, hmem, _⟩ := hresp
    exact absurd hmem (List.not_mem_nil _)
  | cons part rest ih =>
    unfold containsFunc matchesResponse
    cases hfr : part.functionResponse with
    | some fr =>
      have hfc : part.functionCall = none := by
        rcases hkind part (List.mem_cons_self _ _) with h | h
        · exact h
        · rw [hfr] at h
          cases h
      simp [hfc]
    | none =>
      simp only
      apply ih
      · intro q hq
        exact hkind q (List.mem_cons_of_mem _ hq)
      · obtain ⟨q, hq, hqr⟩ := hresp
        rcases List.mem_cons.1 hq with rfl | hq2
        · exact absurd hfr hqr
        · exact ⟨q, hq2, hqr⟩

/-- With a recorded call to check, the loop of lines 110-120 panics on an input in which
every part is of a single kind and some part is a function response. -/
theorem validateLoop_panics_of_response (env : Env) (content : Content)
    (taskParts : List Part)
    (hcall : ∃ taskPart ∈ taskParts, taskPart.functionCall ≠ none)
    (hkind : ∀ part ∈ content.parts, IsSingleKind part)
    (hresp : ∃ part ∈ content.parts, part.functionResponse ≠ none) :
    validateLoop env (some content) taskParts = Outcome.panic := by
  induction taskParts with
  | nil =>
    obtain ⟨taskPart, hmem, _⟩ := hcall
    exact absurd hmem (List.not_mem_nil _)
  | cons taskPart rest ih =>
    unfold validateLoop
    cases hfc : taskPart.functionCall with
    | some fc =>
      simp only [containsFunc_matchesResponse_panics taskPart content.parts hkind hresp]
    | none =>
      simp only
      apply ih
      obtain ⟨q, hq, hqc⟩ := hcall
      rcases List.mem_cons.1 hq with rfl | hq2
      · exact absurd hfc hqc
      · exact ⟨q, hq2, hqc⟩

/-- C17, evaluated on the code: the stored task is suspended on the call `"A"` and each
part of the new input is of a single kind (a text, a function call, a function response).
On the response part the matching closure reads the identifier of the absent function call,
and the validator panics instead of returning. -/
theorem validate_single_kind_input_panics :
    IsSingleKind (textPart "hello") ∧ IsSingleKind (callPart "A") ∧
      IsSingleKind (responsePart "Z") ∧
      matchesResponse (callPart "A") (responsePart "Z") = none ∧
      validateInputRequiredResumption sampleEnv
        (suspendedReqCtx [sampleToA2APart ["A"] (callPart "A")])
        (some { parts := [textPart "hello", callPart "A", responsePart "Z"] }) =
          Outcome.panic :=
  ⟨Or.inl rfl, Or.inr rfl, Or.inl rfl, rfl,
    validateLoop_panics_of_response sampleEnv
      { parts := [textPart "hello", callPart "A", responsePart "Z"] } [callPart "A"]
      ⟨callPart "A", by decide, by decide⟩
      (by
        intro part hmem
        simp only [List.mem_cons, List.mem_singleton, List.not_mem_nil, or_false] at hmem
        rcases hmem with rfl | rfl | rfl
        · exact Or.inl rfl
        · exact Or.inr rfl
        · exact Or.inl rfl)
      ⟨responsePart "Z", by decide, by decide⟩⟩

end Adka2a

namespace Adkinteractions

/-! ## The interaction handler -/

/-- C18: for every request whose method is not POST, `ServeHTTP` replies with status 405 and
does nothing else: it does not decode the body, create a runner, create a session or run
the agent, whatever the collaborators would answer. -/
theorem serveHTTP_rejects_other_methods (env : HandlerEnv) (h : Handler) (r : Request)
    (hm : r.method ≠ "POST") :
    ServeHTTP env h r = [Effect.httpError "POST method is allowed" 405] ∧
      Effect.decodeBody ∉ ServeHTTP env h r ∧
      ∀ e ∈ ServeHTTP env h r, e.isWork = false := by
  have hs : ServeHTTP env h r = [Effect.httpError "POST method is allowed" 405] := by
    unfold ServeHTTP
    simp [methodPost, statusMethodNotAllowed, hm]
  rw [hs]
  refine ⟨rfl, by simp, ?_⟩
  intro e he
  rw [List.mem_singleton] at he
  rw [he]
  rfl

theorem serveHTTP_rejects_other_methods_witness :
    ServeHTTP sampleHandlerEnv sampleHandler { method := "GET", body := "hello" } =
      [Effect.httpError "POST method is allowed" 405] :=
  (serveHTTP_rejects_other_methods sampleHandlerEnv sampleHandler
    { method := "GET", body := "hello" } (by decide)).1

/-- C19: for every POST request whose body decodes to a request with `background` set,
`ServeHTTP` decodes the body, replies with status 501 and does nothing else: it does not
create a runner, create a session or run the agent, whatever the input and the previous
interaction identifier are. -/
theorem serveHTTP_refuses_background (env : HandlerEnv) (h : Handler) (r : Request)
    (req : InteractionRequest)
    (hm : r.method = "POST") (hd : env.decode r.body = Except.ok req)
    (hb : req.background = true) :
    ServeHTTP env h r =
        [Effect.decodeBody,
          Effect.httpError "Background interactions not supported yet" 501] ∧
      ∀ e ∈ ServeHTTP env h r, e.isWork = false := by
  have hs : ServeHTTP env h r =
      [Effect.decodeBody,
        Effect.httpError "Background interactions not supported yet" 501] := by
    unfold ServeHTTP
    simp [methodPost, statusNotImplemented, hm, hd, hb]
  rw [hs]
  refine ⟨rfl, ?_⟩
  intro e he
  simp only [List.mem_cons, List.mem_singleton, List.not_mem_nil, or_false] at he
  rcases he with rfl | rfl <;> rfl

theorem serveHTTP_refuses_background_witness :
    ServeHTTP backgroundHandlerEnv sampleHandler { method := "POST", body := "hello" } =
      [Effect.decodeBody,
        Effect.httpError "Background interactions not supported yet" 501] :=
  (serveHTTP_refuses_background backgroundHandlerEnv sampleHandler
    { method := "POST", body := "hello" }
    { previousInteractionID := "prev-1", input := "hello", background := true }
    rfl rfl rfl).1

end Adkinteractions
